import Mathlib

/-!
# Verification of the bookmark-vault data-synchronization core

Shallow embedding of the optimistic-update / cache-reconciliation layer of
the bookmark-vault repository, together with proofs about the frozen claims.

Embedded source files:
* `src/lib/firestore-advanced.ts` — `AdvancedFirestoreService.searchBookmarks`,
  `filterBookmarksByQuery`;
* `src/lib/firestore.ts` — `FirestoreService.updateBookmark` / `deleteBookmark`;
* `src/hooks/useBookmarkStats.ts` — `calculateBookmarkStats`;
* `hooks/useBookmarks.ts` — `useBookmarkMutations` (optimistic cache updates,
  snapshot, rollback, reconciliation).

Modelling conventions:
* JS `Date` values are modelled as `Int` millisecond timestamps (`getTime`).
* JS strings are Lean `String`s; `toLowerCase`, `trim`, `includes` and
  `startsWith` are modelled over the underlying `List Char` (ASCII-faithful;
  JS is Unicode-aware but all string constants involved are ASCII).
* The Firestore collection is an association list from document id to
  document data; the network round trip of a write is a `RemoteOutcome`
  parameter (success, or failure with the message the SDK would throw).
* The react-query cache is an association list from query key to query data;
  `setQueriesData` / `getQueriesData` use react-query's prefix matching of
  query keys.
-/

/-! ## String helpers (JS semantics over `List Char`) -/

/-- Predicate `strHasPre pat text` — `pat` is an initial segment of `text`
(the list-level content of JS `String.prototype.startsWith`). -/
def strHasPre : List Char → List Char → Bool
  | [], _ => true
  | _ :: _, [] => false
  | a :: as, b :: bs => decide (a = b) && strHasPre as bs

/-- Predicate `strHasSub pat text` — `pat` occurs contiguously in `text`
(the list-level content of JS `String.prototype.includes`). -/
def strHasSub (pat : List Char) : List Char → Bool
  | [] => strHasPre pat []
  | c :: rest => strHasPre pat (c :: rest) || strHasSub pat rest

/-- JS `s.includes(sub)`. -/
def jsIncludes (s sub : String) : Bool :=
  strHasSub sub.data s.data

/-- JS `s.toLowerCase()` (ASCII: per-character `Char.toLower`). -/
def jsLower (s : String) : String :=
  String.mk (s.data.map Char.toLower)

/-- ASCII whitespace recognizer used by `jsTrim`. -/
def isWs (c : Char) : Bool :=
  decide (c = ' ') || decide (c = '\t') || decide (c = '\n') || decide (c = '\r')

/-- JS `s.trim()` (ASCII whitespace). -/
def jsTrim (s : String) : String :=
  String.mk (((s.data.dropWhile isWs).reverse.dropWhile isWs).reverse)

/-- JS `s.startsWith(pre)`. -/
def jsStartsWith (s pre : String) : Bool :=
  strHasPre pre.data s.data

/-! ## Data model (`src/types/index.ts`) -/

/-- The `IBookmark` interface from `src/types/index.ts`.
`createdAt`/`updatedAt` are `Date`s in TS, modelled as millisecond `Int`s. -/
structure IBookmark where
  id : String
  title : String
  url : String
  notes : Option String
  tags : List String
  favorite : Bool
  createdAt : Int
  updatedAt : Int
  userId : String
deriving DecidableEq, Repr

/-! ## Client-side text filter (`filterBookmarksByQuery`,
`src/lib/firestore-advanced.ts` lines 119–137) -/

/-- Model of `AdvancedFirestoreService.filterBookmarksByQuery`: the query is
lower-cased then trimmed (`query.toLowerCase().trim()`), and a bookmark is
retained iff that needle occurs in the lower-cased title, url, notes
(absent notes never match: `|| false`), or some tag. -/
def filterBookmarksByQuery (bookmarks : List IBookmark) (q : String) :
    List IBookmark :=
  let searchLower := jsTrim (jsLower q)
  bookmarks.filter (fun b =>
    jsIncludes (jsLower b.title) searchLower ||
    jsIncludes (jsLower b.url) searchLower ||
    (match b.notes with
     | some n => jsIncludes (jsLower n) searchLower
     | none => false) ||
    b.tags.any (fun t => jsIncludes (jsLower t) searchLower))

/-- Modelled from the spec (for comparison with the code): the claim's
four-field substring test, applied with an arbitrary needle.  The claim's
predicate for query `q` is `substrAnyField (jsLower q)` — the *lower-cased
query* as stated, with no trimming. -/
def substrAnyField (needle : String) (b : IBookmark) : Bool :=
  jsIncludes (jsLower b.title) needle ||
  jsIncludes (jsLower b.url) needle ||
  (match b.notes with
   | some n => jsIncludes (jsLower n) needle
   | none => false) ||
  b.tags.any (fun t => jsIncludes (jsLower t) needle)

/-! ## Paginated server query (`AdvancedFirestoreService.searchBookmarks`,
`src/lib/firestore-advanced.ts` lines 48–113) -/

/-- Model of `BookmarkSearchParams` from `src/lib/firestore-advanced.ts`. -/
structure BookmarkSearchParams where
  query : Option String := none
  favorite : Option Bool := none
deriving DecidableEq, Repr

/-- Model of `PaginationParams`; the `lastDoc : DocumentSnapshot | null` cursor is
modelled by the id of the cursor document. -/
structure PaginationParams where
  pageSize : Option Nat := none
  lastDoc : Option String := none
deriving DecidableEq, Repr

/-- Model of `BookmarkQueryResult`; `lastDoc` is modelled by the id of the last raw
document. -/
structure BookmarkQueryResult where
  bookmarks : List IBookmark
  lastDocId : Option String
  hasMore : Bool
  totalMatches : Nat
deriving DecidableEq, Repr

/-- Stable insertion (descending by `updatedAt`) used to model Firestore's
`orderBy("updatedAt", "desc")` and the JS stable
`sort((a, b) => b.updatedAt - a.updatedAt)`. -/
def insertDesc (b : IBookmark) : List IBookmark → List IBookmark
  | [] => [b]
  | x :: xs =>
    if b.updatedAt < x.updatedAt then x :: insertDesc b xs else b :: x :: xs

/-- Stable sort, descending by `updatedAt`. -/
def sortByUpdatedAtDesc : List IBookmark → List IBookmark
  | [] => []
  | b :: rest => insertDesc b (sortByUpdatedAtDesc rest)

/-- Firestore `startAfter(lastDoc)`: the documents strictly after the cursor
document in the ordered list (modelled by locating the cursor's id; an absent
cursor id yields no documents). -/
def dropThroughId (cid : String) : List IBookmark → List IBookmark
  | [] => []
  | b :: rest => if b.id = cid then rest else dropThroughId cid rest

/-- The Firestore round trip of `searchBookmarks`: equality filters on
`userId` and (when given) `favorite`, `orderBy("updatedAt", "desc")`,
`startAfter` cursor, `limit(fetchSize)`. -/
def queryDocs (store : List IBookmark) (userId : String)
    (favorite : Option Bool) (lastDoc : Option String) (fetchSize : Nat) :
    List IBookmark :=
  let filtered := store.filter (fun b =>
    decide (b.userId = userId) &&
    (match favorite with
     | none => true
     | some f => decide (b.favorite = f)))
  let sorted := sortByUpdatedAtDesc filtered
  let positioned :=
    match lastDoc with
    | none => sorted
    | some cid => dropThroughId cid sorted
  positioned.take fetchSize

/-- JS truthiness of `searchParams.query` (`undefined` and `""` are falsy). -/
def queryTruthy (q : Option String) : Bool :=
  match q with
  | none => false
  | some s => decide (s ≠ "")

/-- JS `const fetchSize = searchParams.query ? pageSize * 2 : pageSize`. -/
def fetchSizeOf (sp : BookmarkSearchParams) (pp : PaginationParams) : Nat :=
  if queryTruthy sp.query then (pp.pageSize.getD 20) * 2
  else pp.pageSize.getD 20

/-- The client-side composition step of `searchBookmarks` (lines 88–94):
`if (searchParams.query && searchParams.query.trim())` apply
`filterBookmarksByQuery`, else pass the records through unchanged. -/
def searchCompose (bookmarks : List IBookmark) (sp : BookmarkSearchParams) :
    List IBookmark :=
  match sp.query with
  | none => bookmarks
  | some q =>
    if q ≠ "" ∧ jsTrim q ≠ "" then filterBookmarksByQuery bookmarks q
    else bookmarks

/-- Model of `AdvancedFirestoreService.searchBookmarks` (success path): over-fetch,
client-side filter, truncate to `pageSize`, and the `hasMore` heuristic
`bookmarks.length === pageSize || (docs.length === fetchSize &&
bookmarks.length >= pageSize)`. -/
def searchBookmarks (store : List IBookmark) (userId : String)
    (sp : BookmarkSearchParams) (pp : PaginationParams) :
    BookmarkQueryResult :=
  let pageSize := pp.pageSize.getD 20
  let fetchSize := fetchSizeOf sp pp
  let rawDocs := queryDocs store userId sp.favorite pp.lastDoc fetchSize
  let bookmarks := searchCompose rawDocs sp
  { bookmarks := bookmarks.take pageSize
    lastDocId := (rawDocs.getLast?).map (·.id)
    hasMore := decide (bookmarks.length = pageSize) ||
      (decide (rawDocs.length = fetchSize) &&
       decide (pageSize ≤ bookmarks.length))
    totalMatches := bookmarks.length }

/-! ## Statistics (`calculateBookmarkStats`, `src/hooks/useBookmarkStats.ts`) -/

/-- Model of `IBookmarkStats`.  `averageTagsPerBookmark` is
`Number((totalTags / totalBookmarks).toFixed(1))` in JS; it is modelled as
the exact rational ratio (the 1-decimal float rounding is not modelled; no
claim concerns this field). -/
structure IBookmarkStats where
  totalBookmarks : Nat
  favoriteBookmarksCount : Nat
  uniqueTagsCount : Nat
  recentBookmarksCount : Nat
  averageTagsPerBookmark : Rat
  maxTagsOnSingleBookmark : Nat
  mostRecentBookmark : Option IBookmark := none
deriving DecidableEq, Repr

/-- Model of `calculateBookmarkStats`.  `oneWeekAgo` (computed from the wall clock in
JS) is a parameter; `new Set(allTags)` is exact-string deduplication. -/
def calculateBookmarkStats (bookmarks : List IBookmark) (oneWeekAgo : Int) :
    IBookmarkStats :=
  if bookmarks.length = 0 then
    { totalBookmarks := 0
      favoriteBookmarksCount := 0
      uniqueTagsCount := 0
      recentBookmarksCount := 0
      averageTagsPerBookmark := 0
      maxTagsOnSingleBookmark := 0 }
  else
    let allTags := (bookmarks.map (·.tags)).flatten
    { totalBookmarks := bookmarks.length
      favoriteBookmarksCount := (bookmarks.filter (·.favorite)).length
      uniqueTagsCount := allTags.dedup.length
      recentBookmarksCount :=
        (bookmarks.filter (fun b => oneWeekAgo ≤ b.createdAt)).length
      averageTagsPerBookmark := (allTags.length : Rat) / (bookmarks.length : Rat)
      maxTagsOnSingleBookmark :=
        bookmarks.foldr (fun b m => max b.tags.length m) 0
      mostRecentBookmark := bookmarks.head? }

/-- Modelled from the spec (for comparison with the code): the number of
distinct tags of all records under case-insensitive comparison. -/
def caseInsensitiveTagCount (bookmarks : List IBookmark) : Nat :=
  (((bookmarks.map (·.tags)).flatten).map jsLower).dedup.length

/-! ## Remote store adapter (`FirestoreService`, `src/lib/firestore.ts`) -/

/-- Document data of a stored bookmark (the Firestore document has no `id`
field; the id is the document name). -/
structure BookmarkDoc where
  title : String
  url : String
  notes : Option String
  tags : List String
  favorite : Bool
  createdAt : Int
  updatedAt : Int
  userId : String
deriving DecidableEq, Repr

/-- The bookmarks collection: document id → document data. -/
abbrev Store := List (String × BookmarkDoc)

/-- Firestore `getDoc` on the collection. -/
def lookupStore : Store → String → Option BookmarkDoc
  | [], _ => none
  | (i, b) :: rest, id => if i = id then some b else lookupStore rest id

/-- Overwrite the document with the given id. -/
def setStore (s : Store) (id : String) (b : BookmarkDoc) : Store :=
  s.map (fun e => if e.1 = id then (id, b) else e)

/-- Remove the document with the given id (`deleteDoc`). -/
def removeStore (s : Store) (id : String) : Store :=
  s.filter (fun e => decide (e.1 ≠ id))

/-- Model of the `Partial<IBookmark>` update payload as produced by the app's callers
(field subsets of title/url/notes/tags/favorite/createdAt/userId; an
`updatedAt` entry would be overwritten by `serverTimestamp()` and is not
modelled). -/
structure BookmarkUpdates where
  title : Option String := none
  url : Option String := none
  notes : Option String := none
  tags : Option (List String) := none
  favorite : Option Bool := none
  createdAt : Option Int := none
  userId : Option String := none
deriving DecidableEq, Repr

/-- Firestore `updateDoc(ref, { ...updates, updatedAt: serverTimestamp() })`: fields
present in the payload overwrite the stored ones; `updatedAt` is stamped
with the store's clock `serverNow`. -/
def applyDocUpdates (b : BookmarkDoc) (u : BookmarkUpdates) (serverNow : Int) :
    BookmarkDoc :=
  { title := u.title.getD b.title
    url := u.url.getD b.url
    notes := match u.notes with | some n => some n | none => b.notes
    tags := u.tags.getD b.tags
    favorite := u.favorite.getD b.favorite
    createdAt := u.createdAt.getD b.createdAt
    updatedAt := serverNow
    userId := u.userId.getD b.userId }

/-- Outcome of the network write (`updateDoc` / `deleteDoc`): success, or a
thrown error with the SDK's message. -/
inductive RemoteOutcome where
  | ok
  | fail (msg : String)
deriving DecidableEq, Repr

/-- The ownership check of `updateBookmark` / `deleteBookmark`:
`bookmarkDoc.exists() && bookmarkDoc.data().userId === userId`. -/
def ownerOk (store : Store) (bookmarkId userId : String) : Bool :=
  match lookupStore store bookmarkId with
  | none => false
  | some b => decide (b.userId = userId)

/-- Model of `FirestoreService.updateBookmark`: read the document, throw
`"Bookmark not found or access denied"` when missing or owned by someone
else, otherwise perform the remote write; every error thrown inside the
`try` is caught and re-thrown as `"Failed to update bookmark"`.  Returns the
surfaced result together with the store after the call. -/
def updateBookmark (store : Store) (bookmarkId : String)
    (updates : BookmarkUpdates) (userId : String) (remote : RemoteOutcome)
    (serverNow : Int) : Except String Unit × Store :=
  let inner : Except String Store :=
    match lookupStore store bookmarkId with
    | none => .error "Bookmark not found or access denied"
    | some b =>
      if b.userId ≠ userId then .error "Bookmark not found or access denied"
      else
        match remote with
        | .fail msg => .error msg
        | .ok => .ok (setStore store bookmarkId (applyDocUpdates b updates serverNow))
  match inner with
  | .ok s => (.ok (), s)
  | .error _ => (.error "Failed to update bookmark", store)

/-- Model of `FirestoreService.deleteBookmark`: same ownership check; the catch-all
re-throws `"Failed to delete bookmark"`. -/
def deleteBookmark (store : Store) (bookmarkId userId : String)
    (remote : RemoteOutcome) : Except String Unit × Store :=
  let inner : Except String Store :=
    match lookupStore store bookmarkId with
    | none => .error "Bookmark not found or access denied"
    | some b =>
      if b.userId ≠ userId then .error "Bookmark not found or access denied"
      else
        match remote with
        | .fail msg => .error msg
        | .ok => .ok (removeStore store bookmarkId)
  match inner with
  | .ok s => (.ok (), s)
  | .error _ => (.error "Failed to delete bookmark", store)

/-! ## React-query cache and the mutation layer (`hooks/useBookmarks.ts`) -/

/-- One segment of a react-query key: a string literal or the trailing
filters object (`{ userId?, query?, favorite? }` merged into one record). -/
inductive KeySeg where
  | str (s : String)
  | filters (userId : Option String) (query : Option String)
      (favorite : Option Bool)
deriving DecidableEq, Repr

/-- A react-query key is an array of segments. -/
abbrev QueryKey := List KeySeg

/-- Data held by one cache entry: an infinite query's
`{ pages: BookmarkQueryResult[] }`, a count query's number, or data of some
other unrelated query. -/
inductive QueryData where
  | infiniteData (pages : List BookmarkQueryResult)
  | countData (n : Int)
  | otherData (tag : Nat)
deriving DecidableEq, Repr

/-- The query cache: query key → query data. -/
abbrev Cache := List (QueryKey × QueryData)

/-- The keys of a cache. -/
def keysOf (c : Cache) : List QueryKey :=
  c.map Prod.fst

/-- React-query partial key matching: the filter key is an initial segment
of the stored key. -/
def keyMatches : List KeySeg → List KeySeg → Bool
  | [], _ => true
  | _ :: _, [] => false
  | a :: as, b :: bs => decide (a = b) && keyMatches as bs

/-- Key filter `[BOOKMARKS_QUERY_KEY]` — the whole bookmark namespace. -/
def allKeyQ : QueryKey := [KeySeg.str "bookmarks"]

/-- Key filter `[BOOKMARKS_QUERY_KEY, "infinite"]`. -/
def infiniteKeyQ : QueryKey := [KeySeg.str "bookmarks", KeySeg.str "infinite"]

/-- Key filter `[BOOKMARKS_QUERY_KEY, "count"]`. -/
def countKeyQ : QueryKey := [KeySeg.str "bookmarks", KeySeg.str "count"]

/-- Apply an updater to one entry when its key matches the filter. -/
def entryUpdate (p : QueryKey) (f : QueryData → QueryData)
    (e : QueryKey × QueryData) : QueryKey × QueryData :=
  if keyMatches p e.1 then (e.1, f e.2) else e

/-- Model of `queryClient.setQueriesData({ queryKey }, updater)`: apply the updater
to every matching entry. -/
def setQueriesData (p : QueryKey) (f : QueryData → QueryData) (c : Cache) :
    Cache :=
  c.map (entryUpdate p f)

/-- Model of `queryClient.getQueriesData({ queryKey })`: the `[key, data]` pairs of
every matching entry. -/
def getQueriesData (p : QueryKey) (c : Cache) : List (QueryKey × QueryData) :=
  c.filter (fun e => keyMatches p e.1)

/-- Model of `queryClient.setQueryData(key, data)`: overwrite the entry with exactly
that key (creating it when absent). -/
def setQueryData (k : QueryKey) (v : QueryData) (c : Cache) : Cache :=
  if c.any (fun e => decide (e.1 = k)) then
    c.map (fun e => if e.1 = k then (k, v) else e)
  else c ++ [(k, v)]

/-- The `onError` rollback loop:
`context.previousData.forEach(([queryKey, data]) =>
queryClient.setQueryData(queryKey, data))`. -/
def restoreSnapshot (snap : List (QueryKey × QueryData)) (c : Cache) : Cache :=
  snap.foldl (fun acc e => setQueryData e.1 e.2 acc) c

/-- Model of `Omit<IBookmark, "id" | "createdAt" | "updatedAt">` — the payload of the
add mutation (its `userId` field is overridden at both use sites). -/
structure NewBookmark where
  title : String
  url : String
  notes : Option String
  tags : List String
  favorite : Bool
  userId : String
deriving DecidableEq, Repr

/-- The optimistic placeholder of `addBookmarkMutation.onMutate`:
`{ ...newBookmark, id: temp-${Date.now()}, createdAt: new Date(),
updatedAt: new Date(), userId: user?.uid || "" }` with `now = Date.now()`. -/
def optimisticBookmark (nb : NewBookmark) (now : Int) (uid : Option String) :
    IBookmark :=
  { id := "temp-" ++ toString now
    title := nb.title
    url := nb.url
    notes := nb.notes
    tags := nb.tags
    favorite := nb.favorite
    createdAt := now
    updatedAt := now
    userId := uid.getD "" }

/-- Prepend a record to the head of the first page (no-op when there are no
pages, mirroring `if (newPages[0])`). -/
def prependFirst (ob : IBookmark) : List BookmarkQueryResult →
    List BookmarkQueryResult
  | [] => []
  | p :: rest => { p with bookmarks := ob :: p.bookmarks } :: rest

/-- The infinite-query updater of `addBookmarkMutation.onMutate`
(`if (!old?.pages) return old`, then prepend to the first page). -/
def addOptimisticUpdater (ob : IBookmark) : QueryData → QueryData
  | .infiniteData pages => .infiniteData (prependFirst ob pages)
  | d => d

/-- The count updater of `addBookmarkMutation.onMutate`:
`(old: number = 0) => old + 1`. -/
def addCountUpdater : QueryData → QueryData
  | .countData n => .countData (n + 1)
  | d => d

/-- Cache effect of `addBookmarkMutation.onMutate`. -/
def addOnMutate (nb : NewBookmark) (now : Int) (uid : Option String)
    (c : Cache) : Cache :=
  setQueriesData countKeyQ addCountUpdater
    (setQueriesData infiniteKeyQ
      (addOptimisticUpdater (optimisticBookmark nb now uid)) c)

/-- A bookmark with a temporary id: `bookmark.id.startsWith("temp-")`. -/
def hasTempId (b : IBookmark) : Bool :=
  jsStartsWith b.id "temp-"

/-- The page transformation of `addBookmarkMutation.onSuccess`: in every
page, every bookmark whose id starts with `"temp-"` is replaced by the saved
server record. -/
def replaceTempWith (saved : IBookmark) (pages : List BookmarkQueryResult) :
    List BookmarkQueryResult :=
  pages.map (fun p =>
    { p with bookmarks := p.bookmarks.map (fun b =>
        if hasTempId b then saved else b) })

/-- Cache effect of `addBookmarkMutation.onSuccess`. -/
def addOnSuccess (saved : IBookmark) (c : Cache) : Cache :=
  setQueriesData infiniteKeyQ
    (fun d => match d with
      | .infiniteData pages => .infiniteData (replaceTempWith saved pages)
      | d => d) c

/-- Modelled from the spec (for comparison with the code): the claim's
reconciliation, which replaces only records bearing *this mutation's*
temporary id. -/
def specReplaceByTempId (tempId : String) (saved : IBookmark) (c : Cache) :
    Cache :=
  setQueriesData infiniteKeyQ
    (fun d => match d with
      | .infiniteData pages => .infiniteData (pages.map (fun p =>
          { p with bookmarks := p.bookmarks.map (fun b =>
              if b.id = tempId then saved else b) }))
      | d => d) c

/-- JS merge `{ ...bookmark, ...updates, updatedAt: new Date() }` — the optimistic
merge of `updateBookmarkMutation.onMutate`. -/
def bookmarkApplyUpdates (b : IBookmark) (u : BookmarkUpdates) (now : Int) :
    IBookmark :=
  { id := b.id
    title := u.title.getD b.title
    url := u.url.getD b.url
    notes := match u.notes with | some n => some n | none => b.notes
    tags := u.tags.getD b.tags
    favorite := u.favorite.getD b.favorite
    createdAt := u.createdAt.getD b.createdAt
    updatedAt := now
    userId := u.userId.getD b.userId }

/-- The infinite-query updater of `updateBookmarkMutation.onMutate`: merge
the updates into every cached occurrence of the record, then re-sort the
first page by `updatedAt` descending. -/
def updateOptimisticUpdater (id : String) (u : BookmarkUpdates) (now : Int) :
    QueryData → QueryData
  | .infiniteData pages =>
    let newPages := pages.map (fun p =>
      { p with bookmarks := p.bookmarks.map (fun b =>
          if b.id = id then bookmarkApplyUpdates b u now else b) })
    .infiniteData
      (match newPages with
       | [] => []
       | p :: rest =>
         { p with bookmarks := sortByUpdatedAtDesc p.bookmarks } :: rest)
  | d => d

/-- The infinite-query updater of `deleteBookmarkMutation.onMutate`: drop
every cached occurrence of the record. -/
def deleteOptimisticUpdater (id : String) : QueryData → QueryData
  | .infiniteData pages => .infiniteData (pages.map (fun p =>
      { p with bookmarks := p.bookmarks.filter (fun b => decide (b.id ≠ id)) }))
  | d => d

/-- The count updater of `deleteBookmarkMutation.onMutate`:
`(old: number = 0) => Math.max(0, old - 1)`. -/
def deleteCountUpdater : QueryData → QueryData
  | .countData n => .countData (max 0 (n - 1))
  | d => d

/-- Cache effect of `deleteBookmarkMutation.onMutate`. -/
def deleteOnMutate (id : String) (c : Cache) : Cache :=
  setQueriesData countKeyQ deleteCountUpdater
    (setQueriesData infiniteKeyQ (deleteOptimisticUpdater id) c)

/-- The three mutations of `useBookmarkMutations`, with the client-side
inputs (payload, wall clock, signed-in uid) their optimistic phases use. -/
inductive MutationKind where
  | create (nb : NewBookmark) (now : Int) (uid : Option String)
  | update (id : String) (u : BookmarkUpdates) (now : Int)
  | delete (id : String)
deriving Repr

/-- The optimistic cache effect of each mutation's `onMutate`. -/
def mutationOptimistic : MutationKind → Cache → Cache
  | .create nb now uid, c => addOnMutate nb now uid c
  | .update id u now, c =>
    setQueriesData infiniteKeyQ (updateOptimisticUpdater id u now) c
  | .delete id, c => deleteOnMutate id c

/-! ## Lemmas about the cache primitives -/

theorem list_map_id_of {α : Type} (f : α → α) :
    ∀ l : List α, (∀ x ∈ l, f x = x) → l.map f = l
  | [], _ => rfl
  | x :: xs, h => by
    rw [List.map_cons, h x (List.mem_cons_self x xs),
      list_map_id_of f xs (fun y hy => h y (List.mem_cons_of_mem _ hy))]

theorem entryUpdate_fst (p : QueryKey) (f : QueryData → QueryData)
    (e : QueryKey × QueryData) : (entryUpdate p f e).1 = e.1 := by
  simp only [entryUpdate]
  split <;> rfl

theorem entryUpdate_no_match (p : QueryKey) (f : QueryData → QueryData)
    (e : QueryKey × QueryData) (h : keyMatches p e.1 = false) :
    entryUpdate p f e = e := by
  simp [entryUpdate, h]

theorem keyMatches_of_cons (x : KeySeg) (rest k : List KeySeg)
    (h : keyMatches (x :: rest) k = true) : keyMatches [x] k = true := by
  cases k with
  | nil => simp [keyMatches] at h
  | cons a as =>
    simp only [keyMatches, Bool.and_eq_true, decide_eq_true_eq] at h ⊢
    exact ⟨h.1, trivial⟩

theorem restoreSnapshot_cons (s : QueryKey × QueryData)
    (rest : List (QueryKey × QueryData)) (c : Cache) :
    restoreSnapshot (s :: rest) c =
      restoreSnapshot rest (setQueryData s.1 s.2 c) := rfl

theorem setQueryData_cons_ne (k : QueryKey) (v : QueryData)
    (x : QueryKey × QueryData) (l : Cache) (hx : x.1 ≠ k) :
    setQueryData k v (x :: l) = x :: setQueryData k v l := by
  have hx' : decide (x.1 = k) = false := by simp [hx]
  simp only [setQueryData, List.any_cons, hx', Bool.false_or]
  cases h : l.any (fun e => decide (e.1 = k)) with
  | true => simp [h, List.map_cons, if_neg hx]
  | false => simp [h]

theorem setQueryData_head_replace (k : QueryKey) (v : QueryData)
    (x : QueryKey × QueryData) (l : Cache) (hx : x.1 = k)
    (hl : ∀ e ∈ l, e.1 ≠ k) :
    setQueryData k v (x :: l) = (k, v) :: l := by
  have hany : ((x :: l).any fun e => decide (e.1 = k)) = true := by
    simp [List.any_cons, hx]
  simp only [setQueryData, hany, if_pos, List.map_cons, if_pos hx]
  rw [list_map_id_of _ l (fun e he => if_neg (hl e he))]

theorem restore_cons_ne (snap : List (QueryKey × QueryData))
    (x : QueryKey × QueryData) :
    ∀ l : Cache, (∀ e ∈ snap, e.1 ≠ x.1) →
      restoreSnapshot snap (x :: l) = x :: restoreSnapshot snap l := by
  induction snap with
  | nil => intro l _; rfl
  | cons s rest ih =>
    intro l h
    have hs : x.1 ≠ s.1 := fun hh => h s (List.mem_cons_self _ _) hh.symm
    rw [restoreSnapshot_cons, setQueryData_cons_ne s.1 s.2 x l hs,
      ih (setQueryData s.1 s.2 l) (fun e he => h e (List.mem_cons_of_mem _ he)),
      restoreSnapshot_cons]

/-- Rolling back by replaying a prefix-matching snapshot undoes any cache
transformation that is entrywise, key-preserving, and identity outside the
matched region. -/
theorem restore_map (p : QueryKey)
    (h : QueryKey × QueryData → QueryKey × QueryData)
    (hkey : ∀ e, (h e).1 = e.1)
    (hid : ∀ e, keyMatches p e.1 = false → h e = e) :
    ∀ c : Cache, (keysOf c).Nodup →
      restoreSnapshot (getQueriesData p c) (c.map h) = c := by
  intro c
  induction c with
  | nil => intro _; rfl
  | cons e rest ih =>
    intro hnd
    have hnd1 : (e.1 :: rest.map Prod.fst).Nodup := by
      simpa only [keysOf, List.map_cons] using hnd
    have hnd0 := List.nodup_cons.mp hnd1
    have hmem : e.1 ∉ rest.map Prod.fst := hnd0.1
    have hnd' : (keysOf rest).Nodup := hnd0.2
    have hne_rest : ∀ s ∈ getQueriesData p rest, s.1 ≠ e.1 := by
      intro s hs hcontra
      exact hmem (hcontra ▸ List.mem_map_of_mem Prod.fst
        (List.mem_of_mem_filter hs))
    cases hp : keyMatches p e.1 with
    | true =>
      have hfilter : getQueriesData p (e :: rest) =
          e :: getQueriesData p rest := by
        simp [getQueriesData, List.filter_cons, hp]
      have hl : ∀ x ∈ rest.map h, x.1 ≠ e.1 := by
        intro x hx hcontra
        rcases List.mem_map.mp hx with ⟨y, hy, rfl⟩
        rw [hkey y] at hcontra
        exact hmem (hcontra ▸ List.mem_map_of_mem Prod.fst hy)
      rw [hfilter, List.map_cons, restoreSnapshot_cons,
        setQueryData_head_replace e.1 e.2 (h e) (rest.map h) (hkey e) hl,
        Prod.mk.eta, restore_cons_ne _ _ _ hne_rest, ih hnd']
    | false =>
      have hfilter : getQueriesData p (e :: rest) = getQueriesData p rest := by
        simp [getQueriesData, List.filter_cons, hp]
      rw [hfilter, List.map_cons, hid e hp,
        restore_cons_ne _ _ _ hne_rest, ih hnd']

theorem keyMatches_bm_of_sub (y : KeySeg) (k : QueryKey)
    (h : keyMatches allKeyQ k = false) :
    keyMatches [KeySeg.str "bookmarks", y] k = false := by
  cases hq : keyMatches [KeySeg.str "bookmarks", y] k with
  | false => rfl
  | true =>
    have := keyMatches_of_cons (KeySeg.str "bookmarks") [y] k hq
    rw [show allKeyQ = [KeySeg.str "bookmarks"] from rfl, this] at h
    exact absurd h (by simp)

theorem nested_bm_update_no_match (y₁ y₂ : KeySeg)
    (f g : QueryData → QueryData) (e : QueryKey × QueryData)
    (h : keyMatches allKeyQ e.1 = false) :
    entryUpdate [KeySeg.str "bookmarks", y₂] g
      (entryUpdate [KeySeg.str "bookmarks", y₁] f e) = e := by
  rw [entryUpdate_no_match _ _ _ (keyMatches_bm_of_sub y₁ e.1 h),
    entryUpdate_no_match _ _ _ (keyMatches_bm_of_sub y₂ e.1 h)]

/-- Claim C1: for every mutation (create, update, or delete) whose remote
call fails, the `onError` handler — replaying the `getQueriesData` snapshot
taken immediately before the optimistic apply via `setQueryData` — restores
every cached query entry, leaving the whole cache (all pages of all bookmark
query entries, counts included) equal to the pre-mutation snapshot state. -/
theorem mutation_rollback_restores_cache (mk : MutationKind) (c : Cache)
    (hnd : (keysOf c).Nodup) :
    restoreSnapshot (getQueriesData allKeyQ c) (mutationOptimistic mk c) = c := by
  cases mk with
  | create nb now uid =>
    show restoreSnapshot (getQueriesData allKeyQ c)
      (setQueriesData countKeyQ addCountUpdater
        (setQueriesData infiniteKeyQ
          (addOptimisticUpdater (optimisticBookmark nb now uid)) c)) = c
    rw [setQueriesData, setQueriesData, List.map_map]
    exact restore_map allKeyQ _
      (fun e => by rw [Function.comp_apply, entryUpdate_fst, entryUpdate_fst])
      (fun e he => by
        rw [Function.comp_apply]
        exact nested_bm_update_no_match _ _ _ _ e he)
      c hnd
  | update id u now =>
    show restoreSnapshot (getQueriesData allKeyQ c)
      (setQueriesData infiniteKeyQ (updateOptimisticUpdater id u now) c) = c
    rw [setQueriesData]
    exact restore_map allKeyQ _
      (fun e => entryUpdate_fst _ _ _)
      (fun e he => entryUpdate_no_match _ _ _
        (keyMatches_bm_of_sub (KeySeg.str "infinite") e.1 he))
      c hnd
  | delete id =>
    show restoreSnapshot (getQueriesData allKeyQ c)
      (setQueriesData countKeyQ deleteCountUpdater
        (setQueriesData infiniteKeyQ (deleteOptimisticUpdater id) c)) = c
    rw [setQueriesData, setQueriesData, List.map_map]
    exact restore_map allKeyQ _
      (fun e => by rw [Function.comp_apply, entryUpdate_fst, entryUpdate_fst])
      (fun e he => by
        rw [Function.comp_apply]
        exact nested_bm_update_no_match _ _ _ _ e he)
      c hnd

/-- A sample cached record used by the witnesses below. -/
def sampleBm1 : IBookmark :=
  { id := "b1", title := "A", url := "https://a.com", notes := none,
    tags := ["x"], favorite := false, createdAt := 5, updatedAt := 9,
    userId := "u1" }

/-- A second sample cached record. -/
def sampleBm2 : IBookmark :=
  { id := "b2", title := "B", url := "https://b.com", notes := some "n",
    tags := [], favorite := true, createdAt := 1, updatedAt := 4,
    userId := "u1" }

/-- A concrete three-entry cache (an infinite query with two pages, a count
query, and an unrelated query) exercised by the witnesses below. -/
def sampleCache : Cache :=
  [([KeySeg.str "bookmarks", KeySeg.str "infinite",
      KeySeg.filters (some "u1") none none],
    QueryData.infiniteData
      [{ bookmarks := [sampleBm1], lastDocId := some "b1", hasMore := true,
         totalMatches := 1 },
       { bookmarks := [sampleBm2], lastDocId := some "b2", hasMore := false,
         totalMatches := 1 }]),
   ([KeySeg.str "bookmarks", KeySeg.str "count",
      KeySeg.filters (some "u1") none none],
    QueryData.countData 2),
   ([KeySeg.str "tags", KeySeg.str "user"], QueryData.otherData 7)]

theorem mutation_rollback_restores_cache_witness :
    (keysOf sampleCache).Nodup ∧
      restoreSnapshot (getQueriesData allKeyQ sampleCache)
        (mutationOptimistic (MutationKind.delete "b1") sampleCache) =
        sampleCache :=
  ⟨by decide, mutation_rollback_restores_cache
    (MutationKind.delete "b1") sampleCache (by decide)⟩

/-! ## Ownership enforcement and error surfacing (`FirestoreService`) -/

deriving instance DecidableEq for Except

/-- A sample stored document owned by `"alice"`. -/
def sampleDoc : BookmarkDoc :=
  { title := "A", url := "https://a.com", notes := none, tags := [],
    favorite := false, createdAt := 1, updatedAt := 2, userId := "alice" }

/-- A one-document sample store. -/
def sampleStore : Store := [("d1", sampleDoc)]

/-- An empty update payload. -/
def emptyUpdates : BookmarkUpdates := {}

/-- Claim C4: whenever the stored record is missing or its stored `userId`
differs from the caller's, `updateBookmark` and `deleteBookmark` always
fail with an error and perform no write — the whole store (in particular
the stored record, if any) is left unchanged, for every remote outcome. -/
theorem ownership_failure_no_write (store : Store) (bookmarkId : String)
    (u : BookmarkUpdates) (userId : String) (remote : RemoteOutcome)
    (serverNow : Int) (h : ownerOk store bookmarkId userId = false) :
    updateBookmark store bookmarkId u userId remote serverNow =
      (.error "Failed to update bookmark", store) ∧
    deleteBookmark store bookmarkId userId remote =
      (.error "Failed to delete bookmark", store) := by
  unfold ownerOk at h
  cases hl : lookupStore store bookmarkId with
  | none => exact ⟨by simp [updateBookmark, hl], by simp [deleteBookmark, hl]⟩
  | some b =>
    rw [hl] at h
    have hb : b.userId ≠ userId := by simpa using h
    exact ⟨by simp [updateBookmark, hl, hb], by simp [deleteBookmark, hl, hb]⟩

theorem ownership_failure_no_write_witness :
    ownerOk sampleStore "d1" "bob" = false ∧
      (updateBookmark sampleStore "d1" emptyUpdates "bob" .ok 9 =
        (.error "Failed to update bookmark", sampleStore) ∧
       deleteBookmark sampleStore "d1" "bob" .ok =
        (.error "Failed to delete bookmark", sampleStore)) :=
  ⟨by decide,
   ownership_failure_no_write sampleStore "d1" emptyUpdates "bob" .ok 9
     (by decide)⟩

/-- Claim C5 counterexample: the ownership/missing-record failure is *not*
surfaced verbatim and is *not* distinguishable from a generic remote
failure — a missing record and a pure network failure surface the identical
`"Failed to update bookmark"` error, which differs from the inner
`"Bookmark not found or access denied"` message the ownership check threw. -/
theorem notfound_error_wrapped_counterexample :
    (updateBookmark sampleStore "missing" emptyUpdates "alice" .ok 9).1 =
      .error "Failed to update bookmark" ∧
    (updateBookmark sampleStore "d1" emptyUpdates "alice"
        (.fail "network down") 9).1 =
      .error "Failed to update bookmark" ∧
    "Failed to update bookmark" ≠ "Bookmark not found or access denied" := by
  refine ⟨by decide, by decide, by decide⟩

/-- Claim C5 (amended): the `NotFoundOrForbidden` condition always surfaces
as a thrown error (never silently ignored), but the catch-all wraps it into
the generic `"Failed to update bookmark"` / `"Failed to delete bookmark"`
error — the same error every remote failure surfaces, so it is not
distinguishable in kind from a generic remote failure. -/
theorem notfound_error_surfaced_wrapped (store : Store) (bookmarkId : String)
    (u : BookmarkUpdates) (userId : String) (remote : RemoteOutcome)
    (serverNow : Int) (h : ownerOk store bookmarkId userId = false) :
    (updateBookmark store bookmarkId u userId remote serverNow).1 =
      .error "Failed to update bookmark" ∧
    (deleteBookmark store bookmarkId userId remote).1 =
      .error "Failed to delete bookmark" ∧
    ∀ (store' : Store) (id' : String) (u' : BookmarkUpdates)
      (uid' msg : String) (now' : Int),
      (updateBookmark store' id' u' uid' (.fail msg) now').1 =
        .error "Failed to update bookmark" := by
  unfold ownerOk at h
  refine ⟨?_, ?_, ?_⟩
  · cases hl : lookupStore store bookmarkId with
    | none => simp [updateBookmark, hl]
    | some b =>
      rw [hl] at h
      have hb : b.userId ≠ userId := by simpa using h
      simp [updateBookmark, hl, hb]
  · cases hl : lookupStore store bookmarkId with
    | none => simp [deleteBookmark, hl]
    | some b =>
      rw [hl] at h
      have hb : b.userId ≠ userId := by simpa using h
      simp [deleteBookmark, hl, hb]
  · intro store' id' u' uid' msg now'
    cases hl : lookupStore store' id' with
    | none => simp [updateBookmark, hl]
    | some b =>
      by_cases hb : b.userId = uid'
      · simp [updateBookmark, hl, hb]
      · simp [updateBookmark, hl, hb]

theorem notfound_error_surfaced_wrapped_witness :
    ownerOk sampleStore "missing" "alice" = false ∧
      ((updateBookmark sampleStore "missing" emptyUpdates "alice" .ok 9).1 =
        .error "Failed to update bookmark" ∧
       (deleteBookmark sampleStore "missing" "alice" .ok).1 =
        .error "Failed to delete bookmark" ∧
       ∀ (store' : Store) (id' : String) (u' : BookmarkUpdates)
         (uid' msg : String) (now' : Int),
         (updateBookmark store' id' u' uid' (.fail msg) now').1 =
           .error "Failed to update bookmark") :=
  ⟨by decide,
   notfound_error_surfaced_wrapped sampleStore "missing" emptyUpdates "alice"
     .ok 9 (by decide)⟩

/-! ## Text-filter semantics (claims C6, C8) -/

/-- Claim C6 (amended): for every record list and non-empty query, the
filter retains a record iff the lower-cased **and whitespace-trimmed** query
is an unanchored substring of the lower-cased title, url, notes, or some
tag; records failing all four tests with that trimmed needle are excluded. -/
theorem filter_retains_iff_trimmed (records : List IBookmark) (q : String)
    (b : IBookmark) (_hq : q ≠ "") :
    b ∈ filterBookmarksByQuery records q ↔
      b ∈ records ∧ substrAnyField (jsTrim (jsLower q)) b = true := by
  simp [filterBookmarksByQuery, substrAnyField, List.mem_filter]

/-- The spec's own example record (title "Next.js Guide"). -/
def nextBm : IBookmark :=
  { id := "n1", title := "Next.js Guide", url := "https://nextjs.org",
    notes := none, tags := ["framework"], favorite := false, createdAt := 0,
    updatedAt := 0, userId := "u1" }

theorem filter_retains_iff_trimmed_witness :
    ("NEXT" ≠ "") ∧
      (nextBm ∈ filterBookmarksByQuery [nextBm] "NEXT" ↔
        nextBm ∈ [nextBm] ∧
          substrAnyField (jsTrim (jsLower "NEXT")) nextBm = true) :=
  ⟨by decide, filter_retains_iff_trimmed [nextBm] "NEXT" nextBm (by decide)⟩

/-- A record whose title contains "a" but not "a " — used to exhibit the
trimming behaviour of the filter. -/
def abBm : IBookmark :=
  { id := "c1", title := "ab", url := "u", notes := none, tags := [],
    favorite := false, createdAt := 0, updatedAt := 0, userId := "u1" }

/-- Claim C6 counterexample: with the non-empty query `"a "` the code
retains the record (it trims the needle to `"a"`), although the record
fails all four substring tests with the lower-cased query `"a "` itself —
so "retains iff the lower-cased query is a substring" is false as stated. -/
theorem filter_trims_query_counterexample :
    filterBookmarksByQuery [abBm] "a " = [abBm] ∧
      substrAnyField (jsLower "a ") abBm = false := by
  refine ⟨by decide, by decide⟩

/-- Claim C8: the search composition applied with an absent or empty text
query returns the input record list unchanged — same elements, same order —
for all inputs (and any favorite flag). -/
theorem searchCompose_empty_query_id (records : List IBookmark)
    (favorite : Option Bool) :
    searchCompose records { query := none, favorite := favorite } = records ∧
    searchCompose records { query := some "", favorite := favorite } =
      records := by
  refine ⟨rfl, ?_⟩
  simp [searchCompose]

/-! ## Over-fetch and `hasMore` (claims C2, C7) -/

theorem jsIncludes_empty (s : String) : jsIncludes s "" = true := by
  show strHasSub [] s.data = true
  cases s.data with
  | nil => rfl
  | cons c r => simp [strHasSub, strHasPre]

theorem toLower_of_ws (c : Char) (h : isWs c = true) : Char.toLower c = c := by
  simp only [isWs, Bool.or_eq_true, decide_eq_true_eq] at h
  rcases h with ((rfl | rfl) | rfl) | rfl <;> decide

theorem all_ws_of_trim_empty (q : String) (h : jsTrim q = "") :
    ∀ c ∈ q.data, isWs c = true := by
  have h' : ((q.data.dropWhile isWs).reverse.dropWhile isWs).reverse = [] :=
    congrArg String.data h
  rw [List.reverse_eq_nil_iff] at h'
  have hdrop : ∀ c ∈ q.data.dropWhile isWs, isWs c = true := by
    intro c hc
    exact List.dropWhile_eq_nil_iff.mp h' c (List.mem_reverse.mpr hc)
  intro c hc
  rw [← List.takeWhile_append_dropWhile (p := isWs) (l := q.data)] at hc
  rcases List.mem_append.mp hc with htake | hdropm
  · exact List.mem_takeWhile_imp htake
  · exact hdrop c hdropm

theorem jsLower_of_all_ws (q : String) (h : ∀ c ∈ q.data, isWs c = true) :
    jsLower q = q := by
  show String.mk (q.data.map Char.toLower) = q
  rw [list_map_id_of Char.toLower q.data (fun c hc => toLower_of_ws c (h c hc))]

theorem trim_lower_blank (q : String) (h : jsTrim q = "") :
    jsTrim (jsLower q) = "" := by
  rw [jsLower_of_all_ws q (all_ws_of_trim_empty q h), h]

theorem filterBookmarksByQuery_blank (l : List IBookmark) (q : String)
    (h : jsTrim (jsLower q) = "") : filterBookmarksByQuery l q = l := by
  simp [filterBookmarksByQuery, h, jsIncludes_empty]

/-- A bookmark of user `"u"` used to exercise the pagination pipeline. -/
def mkCexBm (id title : String) (upd : Int) : IBookmark :=
  { id := id, title := title, url := "h", notes := none, tags := [],
    favorite := false, createdAt := 0, updatedAt := upd, userId := "u" }

/-- Four stored bookmarks of user `"u"`, exactly one of which matches the
text query `"x"`. -/
def cexStore : List IBookmark :=
  [mkCexBm "d1" "x1" 4, mkCexBm "d2" "a" 3, mkCexBm "d3" "b" 2,
   mkCexBm "d4" "c" 1]

/-- Claim C2 counterexample: page size 2, query `"x"`, a raw fetch that
returns a full raw page (4 = 2·pageSize documents) of which only one passes
the filter — the claim's condition (a) holds, yet the code computes
`hasMore = false` (the code requires the post-filter count to reach
`pageSize` whenever it consults the raw-page condition). -/
theorem hasMore_formula_counterexample :
    (searchBookmarks cexStore "u" { query := some "x", favorite := none }
        { pageSize := some 2, lastDoc := none }).hasMore = false ∧
      (queryDocs cexStore "u" none none
        (fetchSizeOf { query := some "x", favorite := none }
          { pageSize := some 2, lastDoc := none })).length =
      fetchSizeOf { query := some "x", favorite := none }
        { pageSize := some 2, lastDoc := none } := by
  refine ⟨by decide, by decide⟩

/-- Claim C2 (amended): for a non-blank text query, `hasMore` is true iff
the post-filter count **equals** `pageSize`, or the raw fetch returned a
full raw page **and** the post-filter count meets or exceeds `pageSize`;
it is false when neither holds. -/
theorem hasMore_heuristic (store : List IBookmark) (userId : String)
    (q : String) (favorite : Option Bool) (pp : PaginationParams)
    (hq : jsTrim q ≠ "") :
    (searchBookmarks store userId ⟨some q, favorite⟩ pp).hasMore = true ↔
      ((filterBookmarksByQuery (queryDocs store userId favorite pp.lastDoc
          ((pp.pageSize.getD 20) * 2)) q).length = pp.pageSize.getD 20 ∨
       ((queryDocs store userId favorite pp.lastDoc
          ((pp.pageSize.getD 20) * 2)).length = (pp.pageSize.getD 20) * 2 ∧
        pp.pageSize.getD 20 ≤
          (filterBookmarksByQuery (queryDocs store userId favorite pp.lastDoc
            ((pp.pageSize.getD 20) * 2)) q).length)) := by
  have hq0 : q ≠ "" := by
    intro h
    exact hq (by rw [h]; rfl)
  simp [searchBookmarks, fetchSizeOf, queryTruthy, searchCompose, hq0, hq]

theorem hasMore_heuristic_witness :
    jsTrim "x" ≠ "" ∧
      ((searchBookmarks cexStore "u" ⟨some "x", none⟩
          { pageSize := some 2, lastDoc := none }).hasMore = true ↔
        ((filterBookmarksByQuery (queryDocs cexStore "u" none none 4)
            "x").length = 2 ∨
         ((queryDocs cexStore "u" none none 4).length = 4 ∧
          2 ≤ (filterBookmarksByQuery (queryDocs cexStore "u" none none 4)
            "x").length))) :=
  ⟨by decide,
   hasMore_heuristic cexStore "u" "x" none
     { pageSize := some 2, lastDoc := none } (by decide)⟩

/-- Claim C7 counterexample: `params.query` present as the empty string is
"present", yet the raw fetch is for `pageSize` records, not `2 * pageSize`
(JS truthiness: `searchParams.query ? pageSize * 2 : pageSize` takes the
else-branch on `""`). -/
theorem overfetch_empty_query_counterexample :
    fetchSizeOf { query := some "", favorite := none }
        { pageSize := none, lastDoc := none } = 20 ∧
      (20 : Nat) ≠ 2 * 20 := by
  refine ⟨by decide, by decide⟩

/-- Claim C7 (amended): for `params.query` present **and non-empty**, the
raw store fetch requests exactly `2 * pageSize` records, and the returned
bookmark list is the text-filtered raw list truncated to at most `pageSize`
items (for a whitespace-only query the code skips the filter, but the
filter is the identity there, so the equation still holds). -/
theorem overfetch_filter_truncate (store : List IBookmark) (userId : String)
    (q : String) (favorite : Option Bool) (pp : PaginationParams)
    (hq : q ≠ "") :
    fetchSizeOf ⟨some q, favorite⟩ pp = 2 * (pp.pageSize.getD 20) ∧
      (searchBookmarks store userId ⟨some q, favorite⟩ pp).bookmarks =
        (filterBookmarksByQuery (queryDocs store userId favorite pp.lastDoc
          (2 * (pp.pageSize.getD 20))) q).take (pp.pageSize.getD 20) := by
  have hfs : fetchSizeOf ⟨some q, favorite⟩ pp = 2 * (pp.pageSize.getD 20) := by
    simp [fetchSizeOf, queryTruthy, hq, Nat.mul_comm]
  refine ⟨hfs, ?_⟩
  by_cases ht : jsTrim q = ""
  · have hblank :
        filterBookmarksByQuery (queryDocs store userId favorite pp.lastDoc
          (2 * (pp.pageSize.getD 20))) q =
        queryDocs store userId favorite pp.lastDoc
          (2 * (pp.pageSize.getD 20)) :=
      filterBookmarksByQuery_blank _ _ (trim_lower_blank q ht)
    simp [searchBookmarks, searchCompose, hq, ht, hfs, hblank]
  · simp [searchBookmarks, searchCompose, hq, ht, hfs]

theorem overfetch_filter_truncate_witness :
    ("x" ≠ "") ∧
      (fetchSizeOf ⟨some "x", none⟩ { pageSize := some 2, lastDoc := none } =
        2 * 2 ∧
       (searchBookmarks cexStore "u" ⟨some "x", none⟩
          { pageSize := some 2, lastDoc := none }).bookmarks =
        (filterBookmarksByQuery (queryDocs cexStore "u" none none (2 * 2))
          "x").take 2) :=
  ⟨by decide,
   overfetch_filter_truncate cexStore "u" "x" none
     { pageSize := some 2, lastDoc := none } (by decide)⟩

/-! ## Unique-tag counting (claim C9) -/

/-- A record carrying the two tags `"React"` and `"react"`. -/
def reactBm : IBookmark :=
  { id := "r1", title := "R", url := "h", notes := none,
    tags := ["React", "react"], favorite := false, createdAt := 0,
    updatedAt := 0, userId := "u1" }

/-- Claim C9 counterexample: `new Set(allTags)` deduplicates by exact string
equality, so a collection containing both `"React"` and `"react"`
contributes **two** to `uniqueTagsCount`, while the case-insensitive
distinct count of the claim is one. -/
theorem uniqueTags_case_sensitive_counterexample :
    (calculateBookmarkStats [reactBm] 0).uniqueTagsCount = 2 ∧
      caseInsensitiveTagCount [reactBm] = 1 := by
  refine ⟨by decide, by decide⟩

/-- Claim C9 (amended): `uniqueTagsCount` is the number of distinct tags
under **exact** (case-sensitive) comparison; on records whose tags are
already lower-cased — which the app's tag inputs guarantee by normalizing
with `tag.trim().toLowerCase()` before storing — it coincides with the
case-insensitive distinct count. -/
theorem uniqueTags_lowercase_case_insensitive (records : List IBookmark)
    (oneWeekAgo : Int)
    (h : ∀ b ∈ records, ∀ t ∈ b.tags, jsLower t = t) :
    (calculateBookmarkStats records oneWeekAgo).uniqueTagsCount =
      caseInsensitiveTagCount records := by
  have hmap : ((records.map (·.tags)).flatten).map jsLower =
      (records.map (·.tags)).flatten := by
    apply list_map_id_of
    intro t ht
    rcases List.mem_flatten.mp ht with ⟨ts, hts, htts⟩
    rcases List.mem_map.mp hts with ⟨b, hb, rfl⟩
    exact h b hb t htts
  unfold calculateBookmarkStats caseInsensitiveTagCount
  rw [hmap]
  by_cases hl : records.length = 0
  · rw [List.length_eq_zero] at hl
    subst hl
    simp
  · have hne : records ≠ [] := by
      intro h0
      exact hl (by simp [h0])
    simp [hne]

theorem uniqueTags_lowercase_case_insensitive_witness :
    (∀ b ∈ [sampleBm1], ∀ t ∈ b.tags, jsLower t = t) ∧
      (calculateBookmarkStats [sampleBm1] 0).uniqueTagsCount =
        caseInsensitiveTagCount [sampleBm1] :=
  ⟨by decide, uniqueTags_lowercase_case_insensitive [sampleBm1] 0 (by decide)⟩

/-! ## Delete-mutation count clamping (claim C10) -/

theorem keyMatches_bm_pair_ne (y1 y2 : KeySeg) (k : QueryKey)
    (hne : y2 ≠ y1)
    (h : keyMatches [KeySeg.str "bookmarks", y1] k = true) :
    keyMatches [KeySeg.str "bookmarks", y2] k = false := by
  cases k with
  | nil => simp [keyMatches] at h
  | cons a as =>
    cases as with
    | nil => simp [keyMatches] at h
    | cons b bs =>
      simp only [keyMatches, Bool.and_eq_true, decide_eq_true_eq] at h
      obtain ⟨ha, hb, -⟩ := h
      simp [keyMatches, ha, ← hb, hne]

/-- Claim C10: the optimistic count adjustment of the delete mutation maps
every cached count value `n` to `max 0 (n - 1)` — in particular the cached
bookmarks count never becomes negative, even when a delete fires while the
cached count is already zero. -/
theorem delete_count_clamped (id : String) (c : Cache) (k : QueryKey)
    (n : Int) (hmem : (k, QueryData.countData n) ∈ c)
    (hk : keyMatches countKeyQ k = true) :
    (k, QueryData.countData (max 0 (n - 1))) ∈
      mutationOptimistic (MutationKind.delete id) c ∧
    0 ≤ max 0 (n - 1) := by
  have hki : keyMatches infiniteKeyQ k = false :=
    keyMatches_bm_pair_ne (KeySeg.str "count") (KeySeg.str "infinite") k
      (by simp) hk
  constructor
  · show (k, QueryData.countData (max 0 (n - 1))) ∈
      setQueriesData countKeyQ deleteCountUpdater
        (setQueriesData infiniteKeyQ (deleteOptimisticUpdater id) c)
    rw [setQueriesData, setQueriesData]
    have h1 := List.mem_map_of_mem
      (entryUpdate infiniteKeyQ (deleteOptimisticUpdater id)) hmem
    rw [entryUpdate_no_match _ _ _ hki] at h1
    have h2 := List.mem_map_of_mem
      (entryUpdate countKeyQ deleteCountUpdater) h1
    have he : entryUpdate countKeyQ deleteCountUpdater
        (k, QueryData.countData n) =
        (k, QueryData.countData (max 0 (n - 1))) := by
      simp [entryUpdate, hk, deleteCountUpdater]
    rw [he] at h2
    exact h2
  · exact le_max_left 0 (n - 1)

/-- The key of a concrete count entry. -/
def countEntryKey : QueryKey :=
  [KeySeg.str "bookmarks", KeySeg.str "count",
   KeySeg.filters (some "u1") none none]

theorem delete_count_clamped_witness :
    ((countEntryKey, QueryData.countData 0) ∈
        ([(countEntryKey, QueryData.countData 0)] : Cache) ∧
      keyMatches countKeyQ countEntryKey = true) ∧
      ((countEntryKey, QueryData.countData (max 0 (0 - 1))) ∈
        mutationOptimistic (MutationKind.delete "b9")
          [(countEntryKey, QueryData.countData 0)] ∧
       0 ≤ max 0 ((0 : Int) - 1)) :=
  ⟨⟨by decide, by decide⟩,
   delete_count_clamped "b9" [(countEntryKey, QueryData.countData 0)]
     countEntryKey 0 (by decide) (by decide)⟩

/-! ## Create mutation: placeholder and reconciliation (claim C3) -/

theorem strHasPre_self_append : ∀ (l m : List Char), strHasPre l (l ++ m) = true
  | [], _ => rfl
  | a :: as, m => by simp [strHasPre, strHasPre_self_append as m]

theorem optimisticBookmark_hasTempId (nb : NewBookmark) (now : Int)
    (uid : Option String) :
    hasTempId (optimisticBookmark nb now uid) = true := by
  show strHasPre "temp-".data (("temp-" ++ toString now).data) = true
  show strHasPre "temp-".data ("temp-".data ++ (toString now).data) = true
  exact strHasPre_self_append _ _

/-- Claim C3 (amended): the optimistic phase of create synthesizes a
placeholder with a temporary id (`temp-` followed by the clock value) and
client-assigned timestamps and prepends it to the head of the first cached
page of each infinite-query entry; on remote success, **every record whose
id starts with `"temp-"`** — the placeholder in particular — is replaced by
the authoritative server record anywhere it appears in the cache. -/
theorem create_prepend_and_reconcile (nb : NewBookmark) (now : Int)
    (uid : Option String) (saved : IBookmark) (c : Cache) (k : QueryKey)
    (pages : List BookmarkQueryResult)
    (hmem : (k, QueryData.infiniteData pages) ∈ c)
    (hk : keyMatches infiniteKeyQ k = true) :
    (k, QueryData.infiniteData
        (prependFirst (optimisticBookmark nb now uid) pages)) ∈
      addOnMutate nb now uid c ∧
    hasTempId (optimisticBookmark nb now uid) = true ∧
    (k, QueryData.infiniteData
        (replaceTempWith saved
          (prependFirst (optimisticBookmark nb now uid) pages))) ∈
      addOnSuccess saved (addOnMutate nb now uid c) := by
  have hkc : keyMatches countKeyQ k = false :=
    keyMatches_bm_pair_ne (KeySeg.str "infinite") (KeySeg.str "count") k
      (by simp) hk
  have h1 := List.mem_map_of_mem
    (entryUpdate infiniteKeyQ
      (addOptimisticUpdater (optimisticBookmark nb now uid))) hmem
  have he1 : entryUpdate infiniteKeyQ
      (addOptimisticUpdater (optimisticBookmark nb now uid))
      (k, QueryData.infiniteData pages) =
      (k, QueryData.infiniteData
        (prependFirst (optimisticBookmark nb now uid) pages)) := by
    simp [entryUpdate, hk, addOptimisticUpdater]
  rw [he1] at h1
  have h2 := List.mem_map_of_mem
    (entryUpdate countKeyQ addCountUpdater) h1
  rw [entryUpdate_no_match _ _ _ hkc] at h2
  have hmut : (k, QueryData.infiniteData
      (prependFirst (optimisticBookmark nb now uid) pages)) ∈
      addOnMutate nb now uid c := h2
  refine ⟨hmut, optimisticBookmark_hasTempId nb now uid, ?_⟩
  have h3 := List.mem_map_of_mem
    (entryUpdate infiniteKeyQ
      (fun d => match d with
        | .infiniteData pages => .infiniteData (replaceTempWith saved pages)
        | d => d)) hmut
  have he3 : entryUpdate infiniteKeyQ
      (fun d => match d with
        | .infiniteData pages => .infiniteData (replaceTempWith saved pages)
        | d => d)
      (k, QueryData.infiniteData
        (prependFirst (optimisticBookmark nb now uid) pages)) =
      (k, QueryData.infiniteData
        (replaceTempWith saved
          (prependFirst (optimisticBookmark nb now uid) pages))) := by
    simp [entryUpdate, hk]
  rw [he3] at h3
  exact h3

/-- The create payload used by the C3 witness and counterexample. -/
def newBm : NewBookmark :=
  { title := "N", url := "https://n.com", notes := none, tags := [],
    favorite := false, userId := "u1" }

/-- The authoritative record the server returns for the create. -/
def savedBm : IBookmark :=
  { id := "real9", title := "N", url := "https://n.com", notes := none,
    tags := [], favorite := false, createdAt := 300, updatedAt := 300,
    userId := "u1" }

theorem create_prepend_and_reconcile_witness :
    (([KeySeg.str "bookmarks", KeySeg.str "infinite",
         KeySeg.filters (some "u1") none none],
        QueryData.infiniteData
          [{ bookmarks := [sampleBm1], lastDocId := some "b1",
             hasMore := true, totalMatches := 1 },
           { bookmarks := [sampleBm2], lastDocId := some "b2",
             hasMore := false, totalMatches := 1 }]) ∈ sampleCache ∧
      keyMatches infiniteKeyQ
        [KeySeg.str "bookmarks", KeySeg.str "infinite",
         KeySeg.filters (some "u1") none none] = true) ∧
    (([KeySeg.str "bookmarks", KeySeg.str "infinite",
        KeySeg.filters (some "u1") none none],
       QueryData.infiniteData
         (prependFirst (optimisticBookmark newBm 222 (some "u1"))
           [{ bookmarks := [sampleBm1], lastDocId := some "b1",
              hasMore := true, totalMatches := 1 },
            { bookmarks := [sampleBm2], lastDocId := some "b2",
              hasMore := false, totalMatches := 1 }])) ∈
        addOnMutate newBm 222 (some "u1") sampleCache ∧
     hasTempId (optimisticBookmark newBm 222 (some "u1")) = true ∧
     ([KeySeg.str "bookmarks", KeySeg.str "infinite",
        KeySeg.filters (some "u1") none none],
       QueryData.infiniteData
         (replaceTempWith savedBm
           (prependFirst (optimisticBookmark newBm 222 (some "u1"))
             [{ bookmarks := [sampleBm1], lastDocId := some "b1",
                hasMore := true, totalMatches := 1 },
              { bookmarks := [sampleBm2], lastDocId := some "b2",
                hasMore := false, totalMatches := 1 }]))) ∈
        addOnSuccess savedBm (addOnMutate newBm 222 (some "u1") sampleCache)) :=
  ⟨⟨by decide, by decide⟩,
   create_prepend_and_reconcile newBm 222 (some "u1") savedBm sampleCache
     [KeySeg.str "bookmarks", KeySeg.str "infinite",
      KeySeg.filters (some "u1") none none]
     [{ bookmarks := [sampleBm1], lastDocId := some "b1", hasMore := true,
        totalMatches := 1 },
      { bookmarks := [sampleBm2], lastDocId := some "b2", hasMore := false,
        totalMatches := 1 }]
     (by decide) (by decide)⟩

/-- A cached page already holding a *different* mutation's placeholder
(id `"temp-111"`). -/
def otherTempBm : IBookmark :=
  { id := "temp-111", title := "O", url := "https://o.com", notes := none,
    tags := [], favorite := false, createdAt := 111, updatedAt := 111,
    userId := "u1" }

/-- A one-entry cache whose single infinite page holds `otherTempBm`. -/
def tempCache : Cache :=
  [([KeySeg.str "bookmarks", KeySeg.str "infinite",
      KeySeg.filters (some "u1") none none],
    QueryData.infiniteData
      [{ bookmarks := [otherTempBm], lastDocId := none, hasMore := false,
         totalMatches := 1 }])]

/-- Claim C3 counterexample: `onSuccess` matches placeholders by the
`"temp-"` **prefix**, not by this mutation's temporary id
(`"temp-" + 222`): on a cache holding another placeholder `"temp-111"`, the
code replaces both records with the saved one, while replacing only the
record bearing the mutation's own temporary id (as the claim states) leaves
`"temp-111"` in place — the two results differ. -/
theorem create_reconcile_matches_any_temp_counterexample :
    addOnSuccess savedBm (addOnMutate newBm 222 (some "u1") tempCache) ≠
      specReplaceByTempId ("temp-" ++ toString (222 : Int)) savedBm
        (addOnMutate newBm 222 (some "u1") tempCache) := by
  decide
